import Mathlib

/-!
# OSC joint relay (`osc_tools/oscfilter.c`, `osc_tools/oschands.c`)

A shallow embedding of the two message handlers of each program and of the part
of `oscfilter`'s `main` that builds the filter structure.

Modelling conventions.

* A `char *` is the list of bytes found at the pointer (`List Nat`).  The C
  string it denotes is the part before the first NUL byte (`cstr`); reading past
  the end of the list reads the terminator.
* `lo_arg` is a union.  A value of the union is modelled by what each of the
  three members used by the code reads from it (`s`, `i`, `f`); a `float` is
  its 32-bit IEEE 754 pattern.
* `lo_send` is variadic: a `float` argument is promoted to `double` by the call
  and read back as a `float` for the field `f` of the message.  That passage
  keeps every value except a signalling NaN, which arrives as the quiet NaN with
  the same payload (`vararg_float`).
* Indexing an array outside its bounds is undefined behaviour in C.  The model
  stops such a run with a `Fault` and says nothing about what the program does
  from there on; in particular a `Fault` does not mean that nothing is sent.
* The process state (`World`) holds the global `done`, the text printed on
  standard output and the log of `lo_send` calls with the value each returned.
  What `lo_send` returns is decided by a `Transport`, which the handlers cannot
  inspect other than through that return value.
-/

set_option linter.unusedVariables false

namespace Gleam

/-! ## C strings -/

/-- The C string stored at a `char *`: the bytes before the first NUL. -/
def cstr (p : List Nat) : List Nat :=
  p.takeWhile (fun b => b ≠ 0)

/-- The libc `strcmp`: walk both strings until they differ or the first ends;
the result is the difference of the two bytes where the walk stops. -/
def strcmp : List Nat → List Nat → Int
  | [], [] => 0
  | [], b :: _ => 0 - (b : Int)
  | a :: _, [] => (a : Int) - 0
  | a :: as, b :: bs =>
    if a = 0 then 0 - (b : Int)
    else if a = b then strcmp as bs
    else (a : Int) - (b : Int)

/-- The bytes of a string literal of the source (all literals are ASCII). -/
def ascii (lit : String) : List Nat :=
  lit.toList.map Char.toNat

/-- The literal `"l_hand"`. -/
def l_hand : List Nat := ascii "l_hand"

/-- The literal `"r_hand"`. -/
def r_hand : List Nat := ascii "r_hand"

/-! ## Floats through a variadic call -/

/-- A 32-bit pattern is a signalling NaN: exponent all ones, mantissa not zero,
top mantissa bit (bit 22) clear. -/
def is_snan (x : Nat) : Bool :=
  decide ((x / 2 ^ 23) % 256 = 255) && decide (x % 2 ^ 23 ≠ 0) && decide ((x / 2 ^ 22) % 2 = 0)

/-- The `float` that arrives in `lo_send` for a `float` argument `x`: the call
promotes `x` to `double` and `lo_send` reads it back as `float`.  Every value is
kept, except that a signalling NaN arrives with its quiet bit (bit 22) set. -/
def vararg_float (x : Nat) : Nat :=
  if is_snan x then x + 2 ^ 22 else x

/-! ## liblo values -/

/-- The union `lo_arg`, seen through the members the handlers read. -/
structure lo_arg where
  /-- bytes at `&arg->s` -/
  s : List Nat
  /-- value of `arg->i` -/
  i : Int
  /-- bit pattern of `arg->f` -/
  f : Nat
deriving DecidableEq, Repr

/-- An outbound address as made by `lo_address_new (host, port)`. -/
structure lo_address where
  host : List Nat
  port : List Nat
deriving DecidableEq, Repr

/-- One call `lo_send (targ, path, types, s, i, f1, f2, f3)`, with the three
floats as they arrive in `lo_send`. -/
structure lo_send_call where
  targ : lo_address
  path : List Nat
  types : List Nat
  s : List Nat
  i : Int
  f1 : Nat
  f2 : Nat
  f3 : Nat
deriving DecidableEq, Repr

/-- Reading outside an array: undefined behaviour, the run is not followed
further. -/
inductive Fault where
  | out_of_bounds
deriving DecidableEq, Repr

deriving instance DecidableEq for Except

/-- The transport behind `lo_send`: given the calls made so far and the present
call, the value `lo_send` returns (`-1` on failure). -/
abbrev Transport := List (lo_send_call × Int) → lo_send_call → Int

/-- Process state: the global `done`, standard output, and the `lo_send` calls
made so far, each with the value it returned. -/
structure World where
  done : Int
  stdout : List String
  net : List (lo_send_call × Int)
deriving DecidableEq, Repr

/-- The messages handed to `lo_send` so far, oldest first. -/
def World.sent (w : World) : List lo_send_call :=
  w.net.map Prod.fst

/-- Adding `calls` to the log of `lo_send` calls. -/
def World.push (w : World) (calls : List (lo_send_call × Int)) : World :=
  { w with net := w.net ++ calls }

/-- The call `lo_send (...)`: the transport decides the return value and the call
is added to the log. -/
def lo_send (tx : Transport) (c : lo_send_call) (w : World) : Int × World :=
  (tx w.net c, { w with net := w.net ++ [(c, tx w.net c)] })

/-! ## Counting table entries -/

/-- The entries `joints[j] .. joints[j + k - 1]` the loop still visits. -/
def window (joints : List (List Nat)) (j k : Nat) : List (List Nat) :=
  (joints.drop j).take k

/-- Number of entries of `es` holding the same C string as `name`. -/
def occurrences (name : List Nat) (es : List (List Nat)) : Nat :=
  es.countP (fun e => decide (cstr e = cstr name))

/-- The call that forwards the message `(a0, a1, a2, a3, a4)` to `targ`: name
and frame index as read, the three floats as they arrive in `lo_send`. -/
def forwarded (targ : lo_address) (path types : List Nat) (a0 a1 a2 a3 a4 : lo_arg) :
    lo_send_call :=
  ⟨targ, path, types, a0.s, a1.i, vararg_float a2.f, vararg_float a3.f, vararg_float a4.f⟩

/-- The message `(a0, a1, a2, a3, a4)` addressed to `targ` with every field as it
is in the input. -/
def unchanged (targ : lo_address) (path types : List Nat) (a0 a1 a2 a3 a4 : lo_arg) :
    lo_send_call :=
  ⟨targ, path, types, a0.s, a1.i, a2.f, a3.f, a4.f⟩

/-! ## oscfilter.c -/

namespace oscfilter

/-- The `struct filter` passed to `joint_handler` as `user_data`. -/
structure filter where
  signature : Int
  addr : lo_address
  num_joints : Int
  joints : List (List Nat)
deriving DecidableEq, Repr

/-- The body of the `for` loop of `joint_handler` from index `j`, with `k`
iterations left (`k = num_joints - j`). -/
def joint_loop (tx : Transport) (path types : List Nat) (argvx : List lo_arg)
    (fltp : filter) : Nat → Nat → World → Except Fault World
  | _, 0, w => .ok w
  | j, k + 1, w =>
    match argvx[0]?, fltp.joints[j]? with
    | some a0, some e =>
      if strcmp a0.s e = 0 then
        match argvx[1]?, argvx[2]?, argvx[3]?, argvx[4]? with
        | some a1, some a2, some a3, some a4 =>
          joint_loop tx path types argvx fltp (j + 1) k
            (lo_send tx ⟨fltp.addr, path, types, a0.s, a1.i, vararg_float a2.f,
              vararg_float a3.f, vararg_float a4.f⟩ w).2
        | _, _, _, _ => .error Fault.out_of_bounds
      else joint_loop tx path types argvx fltp (j + 1) k w
    | _, _ => .error Fault.out_of_bounds

/-- The function `joint_handler` of oscfilter.c.  `FILTER_SIGNATURE` is the
global of that name; `data` and `user_data` are `none` for a null pointer. -/
def joint_handler (tx : Transport) (FILTER_SIGNATURE : Int) (path types : List Nat)
    (argvx : List lo_arg) (argc : Int) (data : Option Nat) (user_data : Option filter)
    (w : World) : Except Fault (Int × World) :=
  match data with
  | none => .ok (1, w)
  | some _ =>
    match user_data with
    | none => .ok (1, w)
    | some fltp =>
      if fltp.signature ≠ FILTER_SIGNATURE then .ok (1, w)
      else
        match joint_loop tx path types argvx fltp 0 fltp.num_joints.toNat w with
        | .ok w1 => .ok (1, w1)
        | .error e => .error e

/-- The function `quit_handler` of oscfilter.c. -/
def quit_handler (path types : List Nat) (argv : List lo_arg) (argc : Int)
    (data : Option Nat) (user_data : Option filter) (w : World) : Int × World :=
  (0, { w with done := 1, stdout := w.stdout ++ ["quitting\n\n"] })

/-- The copying loop of `main`: `for (j = 0, i = 3; j < num_joints; j++, i++)
joints[j] = argv[i]`, from `(j, i)` with `k` iterations left. -/
def fill_joints (argv : List (List Nat)) :
    Nat → Nat → Nat → List (List Nat) → Except Fault (List (List Nat))
  | _, _, 0, joints => .ok joints
  | j, i, k + 1, joints =>
    match argv[i]? with
    | some a =>
      if j < joints.length then fill_joints argv (j + 1) (i + 1) k (joints.set j a)
      else .error Fault.out_of_bounds
    | none => .error Fault.out_of_bounds

/-- How the start of `main` ends. -/
inductive Setup where
  /-- usage printed, `exit (status)` -/
  | exit (status : Int)
  /-- a read or write outside an array -/
  | fault
  /-- the globals and the filter registered for `/joint` -/
  | ready (FILTER_SIGNATURE : Int) (ftr : filter)
deriving DecidableEq, Repr

/-- The start of `main` up to the registration of `joint_handler`: `rnd` is the
value returned by `random ()`. -/
def main_setup (rnd : Int) (argc : Int) (argv : List (List Nat)) : Setup :=
  if argc < 3 then Setup.exit 1
  else
    match argv[1]?, argv[2]? with
    | some _, some port =>
      match fill_joints argv 0 3 (argc - 3).toNat (List.replicate (argc - 3).toNat []) with
      | .ok joints => Setup.ready rnd ⟨rnd, ⟨ascii "127.0.0.1", port⟩, argc - 3, joints⟩
      | .error _ => Setup.fault
    | _, _ => Setup.fault

end oscfilter

/-! ## oschands.c -/

namespace oschands

/-- The function `joint_handler` of oschands.c; `user_data` is the address
registered with the method. -/
def joint_handler (tx : Transport) (path types : List Nat) (argvx : List lo_arg)
    (argc : Int) (data : Option Nat) (user_data : lo_address) (w : World) :
    Except Fault (Int × World) :=
  match data with
  | none => .ok (1, w)
  | some _ =>
    match argvx[0]? with
    | none => .error Fault.out_of_bounds
    | some a0 =>
      if strcmp a0.s l_hand = 0 ∨ strcmp a0.s r_hand = 0 then
        match argvx[1]?, argvx[2]?, argvx[3]?, argvx[4]? with
        | some a1, some a2, some a3, some a4 =>
          .ok (1, (lo_send tx ⟨user_data, path, types, a0.s, a1.i, vararg_float a2.f,
            vararg_float a3.f, vararg_float a4.f⟩ w).2)
        | _, _, _, _ => .error Fault.out_of_bounds
      else .ok (1, w)

/-- The function `quit_handler` of oschands.c. -/
def quit_handler (path types : List Nat) (argv : List lo_arg) (argc : Int)
    (data : Option Nat) (user_data : Option lo_address) (w : World) : Int × World :=
  (0, { w with done := 1, stdout := w.stdout ++ ["quitting\n\n"] })

end oschands

/-! ## Sample data -/

/-- A transport on which every `lo_send` fails. -/
def tx_fail : Transport := fun _ _ => -1

/-- A transport on which every `lo_send` reports 36 bytes sent. -/
def tx_ok : Transport := fun _ _ => 36

/-- The arguments of `/joint ("l_hand", 3, 1.0, 2.0, 3.0)`. -/
def args_l_hand : List lo_arg :=
  [⟨l_hand, 0, 0⟩, ⟨[], 3, 0⟩, ⟨[], 0, 1065353216⟩, ⟨[], 0, 1073741824⟩, ⟨[], 0, 1077936128⟩]

/-- The arguments of `/joint ("l_foot", 3, 1.0, 2.0, 3.0)`. -/
def args_l_foot : List lo_arg :=
  [⟨ascii "l_foot", 0, 0⟩, ⟨[], 3, 0⟩, ⟨[], 0, 1065353216⟩, ⟨[], 0, 1073741824⟩,
    ⟨[], 0, 1077936128⟩]

/-- The arguments of `/joint ("l_hand", 3, x, 2.0, 3.0)` where `x` is the
signalling NaN `0x7fa00000`. -/
def args_snan : List lo_arg :=
  [⟨l_hand, 0, 0⟩, ⟨[], 3, 0⟩, ⟨[], 0, 2141192192⟩, ⟨[], 0, 1073741824⟩, ⟨[], 0, 1077936128⟩]

/-- The destination `127.0.0.1:7111`. -/
def dest : lo_address := ⟨ascii "127.0.0.1", ascii "7111"⟩

/-- The call forwarding `/joint ("l_hand", 3, 1.0, 2.0, 3.0)` to `dest`. -/
def fwd_l_hand : lo_send_call :=
  ⟨dest, ascii "/joint", ascii "sifff", l_hand, 3, 1065353216, 1073741824, 1077936128⟩

/-- A fresh process: `done = 0`, nothing printed, nothing sent. -/
def w0 : World := ⟨0, [], []⟩

/-- A filter with signature 7 for `dest` over the given table. -/
def ftr_of (joints : List (List Nat)) : oscfilter.filter :=
  ⟨7, dest, joints.length, joints⟩

/-! ## Facts about `strcmp` -/

theorem strcmp_eq_zero_iff (a b : List Nat) : strcmp a b = 0 ↔ cstr a = cstr b := by
  induction a generalizing b with
  | nil =>
    cases b with
    | nil => simp [strcmp, cstr]
    | cons y ys =>
      by_cases hy : y = 0
      · simp [strcmp, cstr, hy]
      · simp [strcmp, cstr, hy]
  | cons x xs ih =>
    cases b with
    | nil =>
      by_cases hx : x = 0
      · simp [strcmp, cstr, hx]
      · simp [strcmp, cstr, hx]
    | cons y ys =>
      by_cases hx : x = 0
      · by_cases hy : y = 0
        · simp [strcmp, cstr, hx, hy]
        · simp [strcmp, cstr, hx, hy]
      · by_cases hxy : x = y
        · subst hxy
          have := ih ys
          simp [strcmp, cstr, hx] at this ⊢
          exact this
        · by_cases hy : y = 0
          · have : (x : Int) - (y : Int) ≠ 0 := by omega
            simp [strcmp, cstr, hx, hy, hxy]
          · have : (x : Int) - (y : Int) ≠ 0 := by omega
            simp [strcmp, cstr, hx, hy, hxy, this]

/-! ## Floats through the variadic call -/

theorem vararg_float_of_not_snan (x : Nat) (h : is_snan x = false) : vararg_float x = x := by
  simp [vararg_float, h]

theorem vararg_float_of_snan (x : Nat) (h : is_snan x = true) :
    vararg_float x = x + 2 ^ 22 := by
  simp [vararg_float, h]

theorem vararg_float_eq_self_iff (x : Nat) : vararg_float x = x ↔ is_snan x = false := by
  cases h : is_snan x with
  | false => simp [vararg_float, h]
  | true => simp [vararg_float, h]

/-- Values observed through the call: `0x7fa00000` and `0x7f800001` (signalling
NaNs) arrive as `0x7fe00000` and `0x7fc00001`; `1.0`, `-0.0`, the smallest
subnormal, the largest finite float, infinity and the quiet NaN `0x7fc00000`
arrive as they are. -/
theorem vararg_float_samples :
    vararg_float 2141192192 = 2145386496 ∧ vararg_float 2139095041 = 2143289345 ∧
    vararg_float 1065353216 = 1065353216 ∧ vararg_float 2147483648 = 2147483648 ∧
    vararg_float 1 = 1 ∧ vararg_float 2139095039 = 2139095039 ∧
    vararg_float 2139095040 = 2139095040 ∧ vararg_float 2143289344 = 2143289344 := by
  decide

theorem forwarded_eq_unchanged (targ : lo_address) (path types : List Nat)
    (a0 a1 a2 a3 a4 : lo_arg)
    (h2 : is_snan a2.f = false) (h3 : is_snan a3.f = false) (h4 : is_snan a4.f = false) :
    forwarded targ path types a0 a1 a2 a3 a4 = unchanged targ path types a0 a1 a2 a3 a4 := by
  simp [forwarded, unchanged, vararg_float_of_not_snan, h2, h3, h4]

/-! ## The log of calls and the table window -/

theorem World.push_nil (w : World) : World.push w [] = w := by
  simp [World.push]

theorem World.push_push (w : World) (xs ys : List (lo_send_call × Int)) :
    World.push (World.push w xs) ys = World.push w (xs ++ ys) := by
  simp [World.push, List.append_assoc]

theorem lo_send_snd (tx : Transport) (c : lo_send_call) (w : World) :
    (lo_send tx c w).2 = World.push w [(c, tx w.net c)] := rfl

theorem window_succ (joints : List (List Nat)) (j k : Nat) (e : List Nat)
    (h : joints[j]? = some e) :
    window joints j (k + 1) = e :: window joints (j + 1) k := by
  obtain ⟨hj, he⟩ := List.getElem?_eq_some_iff.mp h
  unfold window
  rw [List.drop_eq_getElem_cons hj, List.take_succ_cons, he]

theorem occurrences_cons (name e : List Nat) (es : List (List Nat)) :
    occurrences name (e :: es) =
      occurrences name es + (if strcmp name e = 0 then 1 else 0) := by
  unfold occurrences
  rw [List.countP_cons]
  by_cases h : strcmp name e = 0
  · have h1 : cstr e = cstr name := ((strcmp_eq_zero_iff name e).mp h).symm
    simp [h, h1]
  · have h1 : ¬ cstr e = cstr name := fun hc => h ((strcmp_eq_zero_iff name e).mpr hc.symm)
    simp [h, h1]

theorem occurrences_eq_zero_iff (name : List Nat) (es : List (List Nat)) :
    occurrences name es = 0 ↔ ∀ e ∈ es, cstr e ≠ cstr name := by
  unfold occurrences
  rw [List.countP_eq_zero]
  simp

theorem occurrences_pos_iff (name : List Nat) (es : List (List Nat)) :
    0 < occurrences name es ↔ ∃ e ∈ es, cstr e = cstr name := by
  unfold occurrences
  rw [List.countP_pos_iff]
  simp

/-! ## The loop of `oscfilter.joint_handler` -/

namespace oscfilter

/-- With five arguments present and the visited entries inside the array, the
loop ends normally after one `lo_send` per visited entry equal to the name. -/
theorem joint_loop_full (tx : Transport) (path types : List Nat)
    (a0 a1 a2 a3 a4 : lo_arg) (rest : List lo_arg) (fltp : filter) :
    ∀ (k j : Nat) (w : World), j + k ≤ fltp.joints.length →
      ∃ calls : List (lo_send_call × Int),
        joint_loop tx path types (a0 :: a1 :: a2 :: a3 :: a4 :: rest) fltp j k w
            = .ok (World.push w calls) ∧
        calls.map Prod.fst =
          List.replicate (occurrences a0.s (window fltp.joints j k))
            (forwarded fltp.addr path types a0 a1 a2 a3 a4) := by
  intro k
  induction k with
  | zero =>
    intro j w _
    exact ⟨[], by simp [joint_loop, World.push_nil], by simp [window, occurrences]⟩
  | succ k ih =>
    intro j w hj
    have hlt : j < fltp.joints.length := by omega
    have he : fltp.joints[j]? = some fltp.joints[j] := List.getElem?_eq_getElem hlt
    rw [window_succ _ _ _ _ he, occurrences_cons]
    by_cases hm : strcmp a0.s fltp.joints[j] = 0
    · obtain ⟨calls, hrun, hcalls⟩ := ih (j + 1)
        (lo_send tx (forwarded fltp.addr path types a0 a1 a2 a3 a4) w).2 (by omega)
      refine ⟨((forwarded fltp.addr path types a0 a1 a2 a3 a4),
        tx w.net (forwarded fltp.addr path types a0 a1 a2 a3 a4)) :: calls, ?_, ?_⟩
      · rw [joint_loop]
        simp only [List.getElem?_cons_zero, List.getElem?_cons_succ, he, hm, if_true]
        change joint_loop tx path types (a0 :: a1 :: a2 :: a3 :: a4 :: rest) fltp (j + 1) k
          (lo_send tx (forwarded fltp.addr path types a0 a1 a2 a3 a4) w).2 = _
        rw [hrun, lo_send_snd, World.push_push]
        rfl
      · simp [hcalls, hm, List.replicate_succ]
    · obtain ⟨calls, hrun, hcalls⟩ := ih (j + 1) w (by omega)
      refine ⟨calls, ?_, ?_⟩
      · rw [joint_loop]
        simp only [List.getElem?_cons_zero, he, hm, if_false]
        exact hrun
      · simp [hcalls, hm]

/-- With the name present and no visited entry equal to it, the loop ends
normally without a call, whatever the other arguments are. -/
theorem joint_loop_no_match (tx : Transport) (path types : List Nat)
    (a0 : lo_arg) (rest : List lo_arg) (fltp : filter) :
    ∀ (k j : Nat) (w : World), j + k ≤ fltp.joints.length →
      occurrences a0.s (window fltp.joints j k) = 0 →
      joint_loop tx path types (a0 :: rest) fltp j k w = .ok w := by
  intro k
  induction k with
  | zero =>
    intro j w _ _
    simp [joint_loop]
  | succ k ih =>
    intro j w hj h0
    have hlt : j < fltp.joints.length := by omega
    have he : fltp.joints[j]? = some fltp.joints[j] := List.getElem?_eq_getElem hlt
    rw [window_succ _ _ _ _ he, occurrences_cons] at h0
    have hm : ¬ strcmp a0.s fltp.joints[j] = 0 := by
      intro hm
      simp [hm] at h0
    have h0' : occurrences a0.s (window fltp.joints (j + 1) k) = 0 := by omega
    rw [joint_loop]
    simp only [List.getElem?_cons_zero, he, hm, if_false]
    exact ih (j + 1) w (by omega) h0'

end oscfilter

theorem World.sent_push (w : World) (calls : List (lo_send_call × Int)) :
    (World.push w calls).sent = w.sent ++ calls.map Prod.fst := by
  simp [World.sent, World.push]

theorem window_all (joints : List (List Nat)) (n : Int) (h : n = joints.length) :
    window joints 0 n.toNat = joints := by
  subst h
  simp [window]

/-! ## `oscfilter.joint_handler` on a valid context -/

namespace oscfilter

/-- A five-argument message under a valid context: the handler returns 1 after
one `lo_send` of the unchanged message per visited entry equal to the name. -/
theorem joint_handler_full (tx : Transport) (F : Int) (path types : List Nat)
    (a0 a1 a2 a3 a4 : lo_arg) (rest : List lo_arg) (argc : Int) (d : Nat)
    (fltp : filter) (w : World)
    (hsig : fltp.signature = F) (hn : fltp.num_joints.toNat ≤ fltp.joints.length) :
    ∃ w1 : World,
      joint_handler tx F path types (a0 :: a1 :: a2 :: a3 :: a4 :: rest) argc (some d)
          (some fltp) w = .ok (1, w1) ∧
      w1.sent = w.sent ++
        List.replicate (occurrences a0.s (window fltp.joints 0 fltp.num_joints.toNat))
          (forwarded fltp.addr path types a0 a1 a2 a3 a4) ∧
      w1.done = w.done ∧ w1.stdout = w.stdout := by
  obtain ⟨calls, hrun, hcalls⟩ := joint_loop_full tx path types a0 a1 a2 a3 a4 rest fltp
    fltp.num_joints.toNat 0 w (by omega)
  refine ⟨World.push w calls, ?_, ?_, rfl, rfl⟩
  · simp only [joint_handler, hsig, ne_eq, not_true_eq_false, if_false, hrun]
  · rw [World.sent_push, hcalls]

/-- A context that is not a valid filter, or a null message: return 1, nothing
else happens. -/
theorem joint_handler_dropped (tx : Transport) (F : Int) (path types : List Nat)
    (argvx : List lo_arg) (argc : Int) (data : Option Nat) (user_data : Option filter)
    (w : World)
    (h : data = none ∨ user_data = none ∨ ∃ f, user_data = some f ∧ f.signature ≠ F) :
    joint_handler tx F path types argvx argc data user_data w = .ok (1, w) := by
  cases data with
  | none => rfl
  | some d =>
    cases user_data with
    | none => rfl
    | some f =>
      rcases h with h | h | ⟨g, hg, hne⟩
      · cases h
      · cases h
      · cases hg
        simp [joint_handler, hne]

/-- A name equal to no entry, or an empty table: nothing is sent. -/
theorem joint_handler_unlisted (tx : Transport) (F : Int) (path types : List Nat)
    (argc : Int) (data : Option Nat) (fltp : filter) (w : World)
    (hn : fltp.num_joints = fltp.joints.length) :
    (∀ (a0 : lo_arg) (rest : List lo_arg), (∀ e ∈ fltp.joints, cstr e ≠ cstr a0.s) →
      joint_handler tx F path types (a0 :: rest) argc data (some fltp) w
        = .ok (1, w)) ∧
    (fltp.joints = [] → ∀ argvx : List lo_arg,
      joint_handler tx F path types argvx argc data (some fltp) w = .ok (1, w)) := by
  constructor
  · intro a0 rest habs
    cases data with
    | none => rfl
    | some d =>
      have h0 : occurrences a0.s (window fltp.joints 0 fltp.num_joints.toNat) = 0 := by
        rw [window_all _ _ hn]
        exact (occurrences_eq_zero_iff _ _).mpr habs
      have hrun := joint_loop_no_match tx path types a0 rest fltp
        fltp.num_joints.toNat 0 w (by omega) h0
      simp only [joint_handler, hrun]
      split <;> rfl
  · intro hempty argvx
    cases data with
    | none => rfl
    | some d =>
      have hz : fltp.num_joints.toNat = 0 := by
        rw [hn, hempty]
        rfl
      simp only [joint_handler, hz, joint_loop]
      split <;> rfl

end oscfilter

/-! ## Claims about `oscfilter.joint_handler` -/

/-- C1, as stated, fails: with the table `["l_hand", "l_hand"]` a `/joint` message
for `"l_hand"` is handed to `lo_send` twice, not once. -/
theorem C1_duplicate_entry_sends_twice :
    oscfilter.joint_handler tx_ok 7 (ascii "/joint") (ascii "sifff") args_l_hand 5 (some 0)
        (some (ftr_of [l_hand, l_hand])) w0
      = .ok (1, ⟨0, [], [(fwd_l_hand, 36), (fwd_l_hand, 36)]⟩) ∧
    ¬ ∃ w1 : World,
        oscfilter.joint_handler tx_ok 7 (ascii "/joint") (ascii "sifff") args_l_hand 5 (some 0)
          (some (ftr_of [l_hand, l_hand])) w0 = .ok (1, w1) ∧
        w1.sent = w0.sent ++ [fwd_l_hand] := by
  have h : oscfilter.joint_handler tx_ok 7 (ascii "/joint") (ascii "sifff") args_l_hand 5
      (some 0) (some (ftr_of [l_hand, l_hand])) w0
      = .ok (1, ⟨0, [], [(fwd_l_hand, 36), (fwd_l_hand, 36)]⟩) := by decide
  refine ⟨h, ?_⟩
  rintro ⟨w1, h1, h2⟩
  rw [h] at h1
  cases h1
  revert h2
  decide

/-- C1 (amended): under a valid context, a `/joint` message whose name is an
entry of the table is forwarded once for each entry holding that name: at least
once, exactly once when the name is listed once.  Every forwarded message is for
the address of the filter and carries the path, types, name and frame index of
the input and its three floats as they pass the variadic call; it is the input
unchanged when none of the three floats is a signalling NaN. -/
theorem C1_listed_joint_forwarded (tx : Transport) (F : Int) (path types : List Nat)
    (a0 a1 a2 a3 a4 : lo_arg) (rest : List lo_arg) (argc : Int) (d : Nat)
    (fltp : oscfilter.filter) (w : World)
    (hsig : fltp.signature = F) (hn : fltp.num_joints = fltp.joints.length)
    (hJ : ∃ e ∈ fltp.joints, cstr e = cstr a0.s) :
    ∃ (w1 : World) (extra : Nat),
      oscfilter.joint_handler tx F path types (a0 :: a1 :: a2 :: a3 :: a4 :: rest) argc
          (some d) (some fltp) w = .ok (1, w1) ∧
      w1.sent = w.sent ++
        (forwarded fltp.addr path types a0 a1 a2 a3 a4) ::
          List.replicate extra (forwarded fltp.addr path types a0 a1 a2 a3 a4) ∧
      occurrences a0.s fltp.joints = extra + 1 ∧
      (occurrences a0.s fltp.joints = 1 → extra = 0) ∧
      (is_snan a2.f = false → is_snan a3.f = false → is_snan a4.f = false →
        forwarded fltp.addr path types a0 a1 a2 a3 a4
          = unchanged fltp.addr path types a0 a1 a2 a3 a4) := by
  obtain ⟨w1, hrun, hsent, _, _⟩ := oscfilter.joint_handler_full tx F path types
    a0 a1 a2 a3 a4 rest argc d fltp w hsig (by omega)
  rw [window_all _ _ hn] at hsent
  have hpos : 0 < occurrences a0.s fltp.joints := (occurrences_pos_iff _ _).mpr hJ
  obtain ⟨extra, hextra⟩ : ∃ m, occurrences a0.s fltp.joints = m + 1 := ⟨_, (Nat.succ_pred_eq_of_pos hpos).symm⟩
  refine ⟨w1, extra, hrun, ?_, hextra, ?_, forwarded_eq_unchanged _ _ _ _ _ _ _ _⟩
  · rw [hsent, hextra, List.replicate_succ]
  · intro h1
    omega

/-- C1 witness: the table `["l_hand", "r_hand"]` and the message
`/joint ("l_hand", 3, 1.0, 2.0, 3.0)`. -/
theorem C1_listed_joint_forwarded_witness :
    ∃ (w1 : World) (extra : Nat),
      oscfilter.joint_handler tx_fail 7 (ascii "/joint") (ascii "sifff") args_l_hand 5
          (some 0) (some (ftr_of [l_hand, r_hand])) w0 = .ok (1, w1) ∧
      w1.sent = w0.sent ++ fwd_l_hand :: List.replicate extra fwd_l_hand ∧
      occurrences l_hand [l_hand, r_hand] = extra + 1 ∧
      (occurrences l_hand [l_hand, r_hand] = 1 → extra = 0) ∧
      (is_snan 1065353216 = false → is_snan 1073741824 = false →
        is_snan 1077936128 = false →
        forwarded dest (ascii "/joint") (ascii "sifff") ⟨l_hand, 0, 0⟩ ⟨[], 3, 0⟩
            ⟨[], 0, 1065353216⟩ ⟨[], 0, 1073741824⟩ ⟨[], 0, 1077936128⟩
          = unchanged dest (ascii "/joint") (ascii "sifff") ⟨l_hand, 0, 0⟩ ⟨[], 3, 0⟩
            ⟨[], 0, 1065353216⟩ ⟨[], 0, 1073741824⟩ ⟨[], 0, 1077936128⟩) :=
  C1_listed_joint_forwarded tx_fail 7 (ascii "/joint") (ascii "sifff")
    ⟨l_hand, 0, 0⟩ ⟨[], 3, 0⟩ ⟨[], 0, 1065353216⟩ ⟨[], 0, 1073741824⟩ ⟨[], 0, 1077936128⟩ []
    5 0 (ftr_of [l_hand, r_hand]) w0 rfl rfl ⟨l_hand, by decide, rfl⟩

/-- C2: a `/joint` message whose name equals no entry of the table (as a C
string, byte for byte) is not forwarded and the handler returns 1; with an empty
table this holds for every argument list. -/
theorem C2_unlisted_joint_dropped (tx : Transport) (F : Int) (path types : List Nat)
    (argc : Int) (data : Option Nat) (fltp : oscfilter.filter) (w : World)
    (hn : fltp.num_joints = fltp.joints.length) :
    (∀ (a0 : lo_arg) (rest : List lo_arg), (∀ e ∈ fltp.joints, cstr e ≠ cstr a0.s) →
      oscfilter.joint_handler tx F path types (a0 :: rest) argc data (some fltp) w
        = .ok (1, w)) ∧
    (fltp.joints = [] → ∀ argvx : List lo_arg,
      oscfilter.joint_handler tx F path types argvx argc data (some fltp) w = .ok (1, w)) :=
  oscfilter.joint_handler_unlisted tx F path types argc data fltp w hn

/-- C2 witness: against the table `["l_hand", "r_hand"]` the names `"l_foot"`,
`"L_hand"` (letter case), `"l_han"` (prefix) and `"l_hands"` (extension) are
dropped; against the empty table `"l_hand"` is dropped. -/
theorem C2_unlisted_joint_dropped_witness :
    oscfilter.joint_handler tx_ok 7 (ascii "/joint") (ascii "sifff") args_l_foot 5 (some 0)
        (some (ftr_of [l_hand, r_hand])) w0 = .ok (1, w0) ∧
    oscfilter.joint_handler tx_ok 7 (ascii "/joint") (ascii "sifff")
        (⟨ascii "L_hand", 0, 0⟩ :: args_l_hand.tail) 5 (some 0)
        (some (ftr_of [l_hand, r_hand])) w0 = .ok (1, w0) ∧
    oscfilter.joint_handler tx_ok 7 (ascii "/joint") (ascii "sifff")
        (⟨ascii "l_han", 0, 0⟩ :: args_l_hand.tail) 5 (some 0)
        (some (ftr_of [l_hand, r_hand])) w0 = .ok (1, w0) ∧
    oscfilter.joint_handler tx_ok 7 (ascii "/joint") (ascii "sifff")
        (⟨ascii "l_hands", 0, 0⟩ :: args_l_hand.tail) 5 (some 0)
        (some (ftr_of [l_hand, r_hand])) w0 = .ok (1, w0) ∧
    oscfilter.joint_handler tx_ok 7 (ascii "/joint") (ascii "sifff") args_l_hand 5 (some 0)
        (some (ftr_of [])) w0 = .ok (1, w0) :=
  ⟨(C2_unlisted_joint_dropped tx_ok 7 (ascii "/joint") (ascii "sifff") 5 (some 0)
      (ftr_of [l_hand, r_hand]) w0 rfl).1 ⟨ascii "l_foot", 0, 0⟩ args_l_hand.tail (by decide),
   (C2_unlisted_joint_dropped tx_ok 7 (ascii "/joint") (ascii "sifff") 5 (some 0)
      (ftr_of [l_hand, r_hand]) w0 rfl).1 ⟨ascii "L_hand", 0, 0⟩ args_l_hand.tail (by decide),
   (C2_unlisted_joint_dropped tx_ok 7 (ascii "/joint") (ascii "sifff") 5 (some 0)
      (ftr_of [l_hand, r_hand]) w0 rfl).1 ⟨ascii "l_han", 0, 0⟩ args_l_hand.tail (by decide),
   (C2_unlisted_joint_dropped tx_ok 7 (ascii "/joint") (ascii "sifff") 5 (some 0)
      (ftr_of [l_hand, r_hand]) w0 rfl).1 ⟨ascii "l_hands", 0, 0⟩ args_l_hand.tail (by decide),
   (C2_unlisted_joint_dropped tx_ok 7 (ascii "/joint") (ascii "sifff") 5 (some 0)
      (ftr_of []) w0 rfl).2 rfl args_l_hand⟩

/-- C3, as stated, fails: the message `/joint ("l_hand", 3, x, 2.0, 3.0)` whose
`x` is the signalling NaN `0x7fa00000` is forwarded with the field `0x7fe00000`
in its place, so the message sent is not the input unchanged. -/
theorem C3_signalling_nan_altered :
    oscfilter.joint_handler tx_ok 7 (ascii "/joint") (ascii "sifff") args_snan 5 (some 0)
        (some (ftr_of [l_hand])) w0
      = .ok (1, ⟨0, [], [(⟨dest, ascii "/joint", ascii "sifff", l_hand, 3, 2145386496,
          1073741824, 1077936128⟩, 36)]⟩) ∧
    ¬ ∃ w1 : World,
        oscfilter.joint_handler tx_ok 7 (ascii "/joint") (ascii "sifff") args_snan 5 (some 0)
          (some (ftr_of [l_hand])) w0 = .ok (1, w1) ∧
        ∀ c ∈ w1.sent, c = unchanged dest (ascii "/joint") (ascii "sifff")
          ⟨l_hand, 0, 0⟩ ⟨[], 3, 0⟩ ⟨[], 0, 2141192192⟩ ⟨[], 0, 1073741824⟩
          ⟨[], 0, 1077936128⟩ := by
  have h : oscfilter.joint_handler tx_ok 7 (ascii "/joint") (ascii "sifff") args_snan 5
      (some 0) (some (ftr_of [l_hand])) w0
      = .ok (1, ⟨0, [], [(⟨dest, ascii "/joint", ascii "sifff", l_hand, 3, 2145386496,
          1073741824, 1077936128⟩, 36)]⟩) := by decide
  refine ⟨h, ?_⟩
  rintro ⟨w1, h1, h2⟩
  rw [h] at h1
  cases h1
  revert h2
  decide

/-- C3 (amended): for every five-argument message and every context whose entry
count lies within its array, the handler returns 1, leaves `done` and the output
unchanged, and every call it makes to `lo_send` is for the address stored in the
filter and carries the `path` and `types` it was given, the name and the frame
index as read, and the three floats as they pass the variadic call; each such
call is the input unchanged when none of the three floats is a signalling NaN. -/
theorem C3_forwarded_call_fields (tx : Transport) (F : Int) (path types : List Nat)
    (a0 a1 a2 a3 a4 : lo_arg) (rest : List lo_arg) (argc : Int) (data : Option Nat)
    (user_data : Option oscfilter.filter) (w : World)
    (hn : ∀ f, user_data = some f → f.num_joints.toNat ≤ f.joints.length) :
    ∃ w1 : World,
      oscfilter.joint_handler tx F path types (a0 :: a1 :: a2 :: a3 :: a4 :: rest) argc
          data user_data w = .ok (1, w1) ∧
      w1.done = w.done ∧ w1.stdout = w.stdout ∧
      ∃ new : List lo_send_call, w1.sent = w.sent ++ new ∧
        (∀ c ∈ new, ∃ f, user_data = some f ∧
          c = forwarded f.addr path types a0 a1 a2 a3 a4) ∧
        (is_snan a2.f = false → is_snan a3.f = false → is_snan a4.f = false →
          ∀ c ∈ new, ∃ f, user_data = some f ∧
            c = unchanged f.addr path types a0 a1 a2 a3 a4) := by
  by_cases hdrop : data = none ∨ user_data = none ∨
      ∃ f, user_data = some f ∧ f.signature ≠ F
  · refine ⟨w, oscfilter.joint_handler_dropped tx F path types _ argc data user_data w hdrop,
      rfl, rfl, [], by simp, by simp, by simp⟩
  · cases data with
    | none => exact absurd (Or.inl rfl) hdrop
    | some d =>
      cases user_data with
      | none => exact absurd (Or.inr (Or.inl rfl)) hdrop
      | some f =>
        have hsig : f.signature = F := by
          by_contra hne
          exact hdrop (Or.inr (Or.inr ⟨f, rfl, hne⟩))
        obtain ⟨w1, hrun, hsent, hdone, hout⟩ := oscfilter.joint_handler_full tx F path types
          a0 a1 a2 a3 a4 rest argc d f w hsig (hn f rfl)
        refine ⟨w1, hrun, hdone, hout, _, hsent, ?_, ?_⟩
        · intro c hc
          exact ⟨f, rfl, List.eq_of_mem_replicate hc⟩
        · intro h2 h3 h4 c hc
          refine ⟨f, rfl, ?_⟩
          rw [List.eq_of_mem_replicate hc]
          exact forwarded_eq_unchanged _ _ _ _ _ _ _ _ h2 h3 h4

/-- C3 witness: the table `["l_hand", "l_hand", "r_hand"]` and the message
`/joint ("l_hand", 3, 1.0, 2.0, 3.0)`. -/
theorem C3_forwarded_call_fields_witness :
    ∃ w1 : World,
      oscfilter.joint_handler tx_ok 7 (ascii "/joint") (ascii "sifff") args_l_hand 5
          (some 0) (some (ftr_of [l_hand, l_hand, r_hand])) w0 = .ok (1, w1) ∧
      w1.done = w0.done ∧ w1.stdout = w0.stdout ∧
      ∃ new : List lo_send_call, w1.sent = w0.sent ++ new ∧
        (∀ c ∈ new, ∃ f, some (ftr_of [l_hand, l_hand, r_hand]) = some f ∧
          c = forwarded f.addr (ascii "/joint") (ascii "sifff") ⟨l_hand, 0, 0⟩ ⟨[], 3, 0⟩
            ⟨[], 0, 1065353216⟩ ⟨[], 0, 1073741824⟩ ⟨[], 0, 1077936128⟩) ∧
        (is_snan 1065353216 = false → is_snan 1073741824 = false →
          is_snan 1077936128 = false →
          ∀ c ∈ new, ∃ f, some (ftr_of [l_hand, l_hand, r_hand]) = some f ∧
            c = unchanged f.addr (ascii "/joint") (ascii "sifff") ⟨l_hand, 0, 0⟩ ⟨[], 3, 0⟩
              ⟨[], 0, 1065353216⟩ ⟨[], 0, 1073741824⟩ ⟨[], 0, 1077936128⟩) :=
  C3_forwarded_call_fields tx_ok 7 (ascii "/joint") (ascii "sifff")
    ⟨l_hand, 0, 0⟩ ⟨[], 3, 0⟩ ⟨[], 0, 1065353216⟩ ⟨[], 0, 1073741824⟩ ⟨[], 0, 1077936128⟩ []
    5 (some 0) (some (ftr_of [l_hand, l_hand, r_hand])) w0
    (fun f hf => by cases hf; decide)

/-- C7: when the message data is null, or `user_data` is null, or the signature
stored in the context differs from `FILTER_SIGNATURE`, the handler returns 1 and
leaves the process state as it was (nothing sent, nothing printed), whatever the
arguments and the table are. -/
theorem C7_invalid_context_dropped (tx : Transport) (F : Int) (path types : List Nat)
    (argvx : List lo_arg) (argc : Int) (data : Option Nat)
    (user_data : Option oscfilter.filter) (w : World)
    (h : data = none ∨ user_data = none ∨ ∃ f, user_data = some f ∧ f.signature ≠ F) :
    oscfilter.joint_handler tx F path types argvx argc data user_data w = .ok (1, w) ∧
    ∀ r w1, oscfilter.joint_handler tx F path types argvx argc data user_data w = .ok (r, w1) →
      r = 1 ∧ w1.sent = w.sent ∧ w1.stdout = w.stdout ∧ w1.done = w.done := by
  have hrun := oscfilter.joint_handler_dropped tx F path types argvx argc data user_data w h
  refine ⟨hrun, ?_⟩
  intro r w1 h1
  rw [hrun] at h1
  cases h1
  exact ⟨rfl, rfl, rfl, rfl⟩

/-- C7 witness: the name `"l_hand"` is in the table but the context carries the
signature 8 while `FILTER_SIGNATURE` is 7. -/
theorem C7_invalid_context_dropped_witness :
    oscfilter.joint_handler tx_ok 7 (ascii "/joint") (ascii "sifff") args_l_hand 5 (some 0)
        (some ⟨8, dest, 1, [l_hand]⟩) w0 = .ok (1, w0) ∧
    ∀ r w1, oscfilter.joint_handler tx_ok 7 (ascii "/joint") (ascii "sifff") args_l_hand 5
        (some 0) (some ⟨8, dest, 1, [l_hand]⟩) w0 = .ok (r, w1) →
      r = 1 ∧ w1.sent = w0.sent ∧ w1.stdout = w0.stdout ∧ w1.done = w0.done :=
  C7_invalid_context_dropped tx_ok 7 (ascii "/joint") (ascii "sifff") args_l_hand 5 (some 0)
    (some ⟨8, dest, 1, [l_hand]⟩) w0 (Or.inr (Or.inr ⟨_, rfl, by decide⟩))

/-- C10: under a valid context, a five-argument `/joint` message is handed to
`lo_send` once for every entry of the table that holds the same C string as its
name, so a name listed `k` times is forwarded `k` times (each call carrying the
message as it passes the variadic call). -/
theorem C10_forwards_once_per_entry (tx : Transport) (F : Int) (path types : List Nat)
    (a0 a1 a2 a3 a4 : lo_arg) (rest : List lo_arg) (argc : Int) (d : Nat)
    (fltp : oscfilter.filter) (w : World)
    (hsig : fltp.signature = F) (hn : fltp.num_joints = fltp.joints.length) :
    ∃ w1 : World,
      oscfilter.joint_handler tx F path types (a0 :: a1 :: a2 :: a3 :: a4 :: rest) argc
          (some d) (some fltp) w = .ok (1, w1) ∧
      w1.sent = w.sent ++
        List.replicate (fltp.joints.countP (fun e => decide (cstr e = cstr a0.s)))
          (forwarded fltp.addr path types a0 a1 a2 a3 a4) ∧
      w1.sent.length = w.sent.length +
        fltp.joints.countP (fun e => decide (cstr e = cstr a0.s)) := by
  obtain ⟨w1, hrun, hsent, _, _⟩ := oscfilter.joint_handler_full tx F path types
    a0 a1 a2 a3 a4 rest argc d fltp w hsig (by omega)
  rw [window_all _ _ hn] at hsent
  refine ⟨w1, hrun, hsent, ?_⟩
  rw [hsent]
  simp [occurrences]

/-- C10 witness: `"l_hand"` is listed three times in the table. -/
theorem C10_forwards_once_per_entry_witness :
    ∃ w1 : World,
      oscfilter.joint_handler tx_ok 7 (ascii "/joint") (ascii "sifff") args_l_hand 5
          (some 0) (some (ftr_of [l_hand, r_hand, l_hand, l_hand])) w0 = .ok (1, w1) ∧
      w1.sent = w0.sent ++
        List.replicate
          ([l_hand, r_hand, l_hand, l_hand].countP (fun e => decide (cstr e = cstr l_hand)))
          fwd_l_hand ∧
      w1.sent.length = w0.sent.length +
        [l_hand, r_hand, l_hand, l_hand].countP (fun e => decide (cstr e = cstr l_hand)) :=
  C10_forwards_once_per_entry tx_ok 7 (ascii "/joint") (ascii "sifff")
    ⟨l_hand, 0, 0⟩ ⟨[], 3, 0⟩ ⟨[], 0, 1065353216⟩ ⟨[], 0, 1073741824⟩ ⟨[], 0, 1077936128⟩ []
    5 0 (ftr_of [l_hand, r_hand, l_hand, l_hand]) w0 rfl rfl

/-! ## Claims about `oschands.joint_handler` and `quit_handler` -/

theorem strcmp_l_hand (a : List Nat) : strcmp a l_hand = 0 ↔ cstr a = l_hand := by
  rw [strcmp_eq_zero_iff]
  have h : cstr l_hand = l_hand := by decide
  rw [h]

theorem strcmp_r_hand (a : List Nat) : strcmp a r_hand = 0 ↔ cstr a = r_hand := by
  rw [strcmp_eq_zero_iff]
  have h : cstr r_hand = r_hand := by decide
  rw [h]

/-- C5, as stated, fails: oschands forwards `/joint ("l_hand", 3, x, 2.0, 3.0)`,
`x` the signalling NaN `0x7fa00000`, with the field `0x7fe00000` in its place, so
the one message forwarded is not identical to the input. -/
theorem C5_signalling_nan_altered :
    oschands.joint_handler tx_ok (ascii "/joint") (ascii "sifff") args_snan 5 (some 0)
        dest w0
      = .ok (1, ⟨0, [], [(⟨dest, ascii "/joint", ascii "sifff", l_hand, 3, 2145386496,
          1073741824, 1077936128⟩, 36)]⟩) ∧
    ¬ ∃ w1 : World,
        oschands.joint_handler tx_ok (ascii "/joint") (ascii "sifff") args_snan 5 (some 0)
          dest w0 = .ok (1, w1) ∧
        w1.sent = w0.sent ++ [unchanged dest (ascii "/joint") (ascii "sifff")
          ⟨l_hand, 0, 0⟩ ⟨[], 3, 0⟩ ⟨[], 0, 2141192192⟩ ⟨[], 0, 1073741824⟩
          ⟨[], 0, 1077936128⟩] := by
  have h : oschands.joint_handler tx_ok (ascii "/joint") (ascii "sifff") args_snan 5
      (some 0) dest w0
      = .ok (1, ⟨0, [], [(⟨dest, ascii "/joint", ascii "sifff", l_hand, 3, 2145386496,
          1073741824, 1077936128⟩, 36)]⟩) := by decide
  refine ⟨h, ?_⟩
  rintro ⟨w1, h1, h2⟩
  rw [h] at h1
  cases h1
  revert h2
  decide

/-- C5 (amended): in oschands, a five-argument `/joint` message with non-null
data is handed to `lo_send` exactly once, for the registered address, when its
name is `"l_hand"` or `"r_hand"`, and is not forwarded for any other name; the
handler returns 1 in both cases.  The forwarded message carries the path, types,
name and frame index of the input and its three floats as they pass the variadic
call; it is the input unchanged when none of the three floats is a signalling
NaN. -/
theorem C5_hands_only (tx : Transport) (path types : List Nat)
    (a0 a1 a2 a3 a4 : lo_arg) (rest : List lo_arg) (argc : Int) (d : Nat)
    (user_data : lo_address) (w : World) :
    ((cstr a0.s = l_hand ∨ cstr a0.s = r_hand) →
      ∃ w1 : World,
        oschands.joint_handler tx path types (a0 :: a1 :: a2 :: a3 :: a4 :: rest) argc
            (some d) user_data w = .ok (1, w1) ∧
        w1.sent = w.sent ++ [forwarded user_data path types a0 a1 a2 a3 a4] ∧
        w1.done = w.done ∧ w1.stdout = w.stdout ∧
        (is_snan a2.f = false → is_snan a3.f = false → is_snan a4.f = false →
          w1.sent = w.sent ++ [unchanged user_data path types a0 a1 a2 a3 a4])) ∧
    ((cstr a0.s ≠ l_hand ∧ cstr a0.s ≠ r_hand) →
      oschands.joint_handler tx path types (a0 :: a1 :: a2 :: a3 :: a4 :: rest) argc
          (some d) user_data w = .ok (1, w)) := by
  constructor
  · intro h
    have hc : strcmp a0.s l_hand = 0 ∨ strcmp a0.s r_hand = 0 :=
      h.imp (strcmp_l_hand a0.s).mpr (strcmp_r_hand a0.s).mpr
    have hsent : (lo_send tx (forwarded user_data path types a0 a1 a2 a3 a4) w).2.sent
        = w.sent ++ [forwarded user_data path types a0 a1 a2 a3 a4] := by
      rw [lo_send_snd, World.sent_push]
      rfl
    refine ⟨(lo_send tx (forwarded user_data path types a0 a1 a2 a3 a4) w).2,
      ?_, hsent, rfl, rfl, ?_⟩
    · simp only [oschands.joint_handler, List.getElem?_cons_zero, List.getElem?_cons_succ,
        hc, if_true]
      rfl
    · intro h2 h3 h4
      rw [hsent, forwarded_eq_unchanged _ _ _ _ _ _ _ _ h2 h3 h4]
  · intro h
    have hc : ¬ (strcmp a0.s l_hand = 0 ∨ strcmp a0.s r_hand = 0) := by
      rw [strcmp_l_hand, strcmp_r_hand]
      exact not_or.mpr h
    simp only [oschands.joint_handler, List.getElem?_cons_zero, hc, if_false]

/-- C5 witness: `/joint ("l_hand", 3, 1.0, 2.0, 3.0)` is forwarded once, unchanged,
and `/joint ("l_foot", 3, 1.0, 2.0, 3.0)` is not forwarded. -/
theorem C5_hands_only_witness :
    (∃ w1 : World,
      oschands.joint_handler tx_ok (ascii "/joint") (ascii "sifff") args_l_hand 5
          (some 0) dest w0 = .ok (1, w1) ∧
      w1.sent = w0.sent ++ [fwd_l_hand] ∧ w1.done = w0.done ∧ w1.stdout = w0.stdout ∧
      (is_snan 1065353216 = false → is_snan 1073741824 = false →
        is_snan 1077936128 = false →
        w1.sent = w0.sent ++ [unchanged dest (ascii "/joint") (ascii "sifff")
          ⟨l_hand, 0, 0⟩ ⟨[], 3, 0⟩ ⟨[], 0, 1065353216⟩ ⟨[], 0, 1073741824⟩
          ⟨[], 0, 1077936128⟩])) ∧
    oschands.joint_handler tx_ok (ascii "/joint") (ascii "sifff") args_l_foot 5
        (some 0) dest w0 = .ok (1, w0) :=
  ⟨(C5_hands_only tx_ok (ascii "/joint") (ascii "sifff")
      ⟨l_hand, 0, 0⟩ ⟨[], 3, 0⟩ ⟨[], 0, 1065353216⟩ ⟨[], 0, 1073741824⟩ ⟨[], 0, 1077936128⟩ []
      5 0 dest w0).1 (Or.inl (by decide)),
   (C5_hands_only tx_ok (ascii "/joint") (ascii "sifff")
      ⟨ascii "l_foot", 0, 0⟩ ⟨[], 3, 0⟩ ⟨[], 0, 1065353216⟩ ⟨[], 0, 1073741824⟩
      ⟨[], 0, 1077936128⟩ [] 5 0 dest w0).2 ⟨by decide, by decide⟩⟩

/-- C6: in both programs, whatever `done` was and whatever the arguments are,
one call of `quit_handler` returns 0 and leaves `done = 1`; a second call returns
0 and leaves `done` as the first call left it; no call leaves `done = 0`, and no
call sends a message. -/
theorem C6_quit_idempotent (path types path2 types2 : List Nat) (argv argv2 : List lo_arg)
    (argc argc2 : Int) (data data2 : Option Nat) (w : World) :
    (∀ u u2 : Option oscfilter.filter,
      (oscfilter.quit_handler path types argv argc data u w).1 = 0 ∧
      (oscfilter.quit_handler path types argv argc data u w).2.done = 1 ∧
      (oscfilter.quit_handler path2 types2 argv2 argc2 data2 u2
        (oscfilter.quit_handler path types argv argc data u w).2).1 = 0 ∧
      (oscfilter.quit_handler path2 types2 argv2 argc2 data2 u2
        (oscfilter.quit_handler path types argv argc data u w).2).2.done
        = (oscfilter.quit_handler path types argv argc data u w).2.done ∧
      (oscfilter.quit_handler path types argv argc data u w).2.done ≠ 0 ∧
      (oscfilter.quit_handler path types argv argc data u w).2.net = w.net) ∧
    (∀ u u2 : Option lo_address,
      (oschands.quit_handler path types argv argc data u w).1 = 0 ∧
      (oschands.quit_handler path types argv argc data u w).2.done = 1 ∧
      (oschands.quit_handler path2 types2 argv2 argc2 data2 u2
        (oschands.quit_handler path types argv argc data u w).2).1 = 0 ∧
      (oschands.quit_handler path2 types2 argv2 argc2 data2 u2
        (oschands.quit_handler path types argv argc data u w).2).2.done
        = (oschands.quit_handler path types argv argc data u w).2.done ∧
      (oschands.quit_handler path types argv argc data u w).2.done ≠ 0 ∧
      (oschands.quit_handler path types argv argc data u w).2.net = w.net) := by
  constructor
  · intro u u2
    simp [oscfilter.quit_handler]
  · intro u u2
    simp [oschands.quit_handler]

/-! ## The filter built by `oscfilter`'s `main` -/

theorem take_succ_set (l : List (List Nat)) (a : List Nat) :
    ∀ j : Nat, j < l.length → (l.set j a).take (j + 1) = l.take j ++ [a] := by
  induction l with
  | nil => intro j h; simp at h
  | cons x xs ih =>
    intro j h
    cases j with
    | zero => simp
    | succ j =>
      have := ih j (by simpa using h)
      simp [this]

namespace oscfilter

/-- The copying loop writes `argv[3 + j] ..` over `joints[j] ..` and keeps what
is before index `j`. -/
theorem fill_joints_spec (argv : List (List Nat)) :
    ∀ (k j : Nat) (joints : List (List Nat)), joints.length = j + k →
      3 + j + k ≤ argv.length →
      fill_joints argv j (3 + j) k joints
        = .ok (joints.take j ++ (argv.drop (3 + j)).take k) := by
  intro k
  induction k with
  | zero =>
    intro j joints hlen _
    have : joints.take j = joints := List.take_of_length_le (by omega)
    simp [fill_joints, this]
  | succ k ih =>
    intro j joints hlen harg
    have hi : 3 + j < argv.length := by omega
    have hj : j < joints.length := by omega
    have hstep := ih (j + 1) (joints.set j argv[3 + j]) (by simp; omega) (by omega)
    rw [fill_joints]
    simp only [List.getElem?_eq_getElem hi, hj, if_true]
    rw [show 3 + j + 1 = 3 + (j + 1) from rfl, hstep, take_succ_set _ _ _ hj,
      List.drop_eq_getElem_cons hi, List.take_succ_cons, List.append_assoc]
    rfl

/-- With `argc` arguments, at least three, `main` registers the filter whose
table is the arguments from the fourth on. -/
theorem main_setup_ready (rnd : Int) (argc : Int) (argv : List (List Nat))
    (h3 : 3 ≤ argc) (hlen : argc = argv.length) :
    ∃ port, argv[2]? = some port ∧
      main_setup rnd argc argv
        = Setup.ready rnd ⟨rnd, ⟨ascii "127.0.0.1", port⟩, argc - 3, argv.drop 3⟩ := by
  have hl : 3 ≤ argv.length := by omega
  have hfill := fill_joints_spec argv (argc - 3).toNat 0
    (List.replicate (argc - 3).toNat []) (by simp) (by omega)
  have htake : (argv.drop 3).take (argc - 3).toNat = argv.drop 3 :=
    List.take_of_length_le (by simp; omega)
  simp only [Nat.add_zero, List.take_zero, List.nil_append, htake] at hfill
  refine ⟨argv[2], List.getElem?_eq_getElem (by omega), ?_⟩
  have h1 : argv[1]? = some argv[1] := List.getElem?_eq_getElem (by omega)
  have h2 : argv[2]? = some argv[2] := List.getElem?_eq_getElem (by omega)
  have hlt : ¬ argc < 3 := by omega
  simp only [main_setup, hlt, if_false, h1, h2, hfill]

end oscfilter

/-- C9: started with `argc ≥ 3` arguments, `main` registers a filter with its own
signature, the destination `127.0.0.1:argv[2]`, and a table of `argc - 3` entries
whose `j`-th entry is `argv[j + 3]`; a five-argument `/joint` message then handled
is forwarded if and only if its name is, as a C string, one of `argv[3] ..`. -/
theorem C9_table_from_command_line (rnd : Int) (argc : Int) (argv : List (List Nat))
    (h3 : 3 ≤ argc) (hlen : argc = argv.length) :
    ∃ ftr : oscfilter.filter,
      oscfilter.main_setup rnd argc argv = oscfilter.Setup.ready rnd ftr ∧
      ftr.signature = rnd ∧
      ftr.addr.host = ascii "127.0.0.1" ∧ some ftr.addr.port = argv[2]? ∧
      ftr.num_joints = argc - 3 ∧
      (ftr.joints.length : Int) = argc - 3 ∧
      (∀ j : Nat, ftr.joints[j]? = argv[j + 3]?) ∧
      ∀ (tx : Transport) (path types : List Nat) (a0 a1 a2 a3 a4 : lo_arg)
        (rest : List lo_arg) (ac : Int) (d : Nat) (w : World),
        ∃ w1 : World,
          oscfilter.joint_handler tx rnd path types (a0 :: a1 :: a2 :: a3 :: a4 :: rest) ac
              (some d) (some ftr) w = .ok (1, w1) ∧
          (w1.sent ≠ w.sent ↔ ∃ e ∈ argv.drop 3, cstr e = cstr a0.s) := by
  obtain ⟨port, hport, hrun⟩ := oscfilter.main_setup_ready rnd argc argv h3 hlen
  have hcount : ((argv.drop 3).length : Int) = argc - 3 := by
    simp only [List.length_drop]
    omega
  refine ⟨_, hrun, rfl, rfl, hport.symm, rfl, hcount, ?_, ?_⟩
  · intro j
    simp only [List.getElem?_drop, Nat.add_comm]
  · intro tx path types a0 a1 a2 a3 a4 rest ac d w
    obtain ⟨w1, hh, hsent, _, _⟩ := oscfilter.joint_handler_full tx rnd path types
      a0 a1 a2 a3 a4 rest ac d
      ⟨rnd, ⟨ascii "127.0.0.1", port⟩, argc - 3, argv.drop 3⟩ w rfl
      (by simp only [List.length_drop]; omega)
    refine ⟨w1, hh, ?_⟩
    rw [hsent, window_all _ _ hcount.symm, ← occurrences_pos_iff]
    cases hocc : occurrences a0.s (argv.drop 3) with
    | zero => simp
    | succ m => simp [List.replicate_succ]

/-- C9 witness: `oscfilter 7110 7111 l_hand r_hand`. -/
theorem C9_table_from_command_line_witness :
    ∃ ftr : oscfilter.filter,
      oscfilter.main_setup 7 5
          [ascii "oscfilter", ascii "7110", ascii "7111", l_hand, r_hand]
        = oscfilter.Setup.ready 7 ftr ∧
      ftr.signature = 7 ∧
      ftr.addr.host = ascii "127.0.0.1" ∧
      some ftr.addr.port
        = [ascii "oscfilter", ascii "7110", ascii "7111", l_hand, r_hand][2]? ∧
      ftr.num_joints = 5 - 3 ∧
      (ftr.joints.length : Int) = 5 - 3 ∧
      (∀ j : Nat, ftr.joints[j]?
        = [ascii "oscfilter", ascii "7110", ascii "7111", l_hand, r_hand][j + 3]?) ∧
      ∀ (tx : Transport) (path types : List Nat) (a0 a1 a2 a3 a4 : lo_arg)
        (rest : List lo_arg) (ac : Int) (d : Nat) (w : World),
        ∃ w1 : World,
          oscfilter.joint_handler tx 7 path types (a0 :: a1 :: a2 :: a3 :: a4 :: rest) ac
              (some d) (some ftr) w = .ok (1, w1) ∧
          (w1.sent ≠ w.sent ↔
            ∃ e ∈ [ascii "oscfilter", ascii "7110", ascii "7111", l_hand, r_hand].drop 3,
              cstr e = cstr a0.s) :=
  C9_table_from_command_line 7 5
    [ascii "oscfilter", ascii "7110", ascii "7111", l_hand, r_hand] (by decide) (by decide)

/-! ## Short payloads, and the result of `lo_send` -/

/-- C8, as stated, fails: when `lo_send` returns `-1` for a forwarded message the
handler returns 1 and prints nothing, so the failure is not reported. -/
theorem C8_failed_send_not_logged :
    oscfilter.joint_handler tx_fail 7 (ascii "/joint") (ascii "sifff") args_l_hand 5 (some 0)
        (some (ftr_of [l_hand])) w0
      = .ok (1, ⟨0, [], [(fwd_l_hand, -1)]⟩) ∧
    ¬ ∃ w1 : World,
        oscfilter.joint_handler tx_fail 7 (ascii "/joint") (ascii "sifff") args_l_hand 5
          (some 0) (some (ftr_of [l_hand])) w0 = .ok (1, w1) ∧
        w1.stdout ≠ w0.stdout := by
  have h : oscfilter.joint_handler tx_fail 7 (ascii "/joint") (ascii "sifff") args_l_hand 5
      (some 0) (some (ftr_of [l_hand])) w0
      = .ok (1, ⟨0, [], [(fwd_l_hand, -1)]⟩) := by decide
  refine ⟨h, ?_⟩
  rintro ⟨w1, h1, h2⟩
  rw [h] at h1
  cases h1
  exact h2 rfl

/-- C8 (amended): the handler ignores what `lo_send` returns.  For a five-argument
message, the calls it makes to `lo_send` are the same for every transport,
failing or not, and every earlier history of calls: one call per matching entry,
none repeated; it returns 1 and leaves `done` and the output as they were, so a
failed send is neither retried nor reported nor does it change how this or any
later message is handled. -/
theorem C8_send_result_ignored (F : Int) (path types : List Nat)
    (a0 a1 a2 a3 a4 : lo_arg) (rest : List lo_arg) (argc : Int) (data : Option Nat)
    (user_data : Option oscfilter.filter)
    (hn : ∀ f, user_data = some f → f.num_joints.toNat ≤ f.joints.length) :
    ∃ new : List lo_send_call, ∀ (tx : Transport) (w : World),
      ∃ w1 : World,
        oscfilter.joint_handler tx F path types (a0 :: a1 :: a2 :: a3 :: a4 :: rest) argc
            data user_data w = .ok (1, w1) ∧
        w1.sent = w.sent ++ new ∧ w1.stdout = w.stdout ∧ w1.done = w.done := by
  by_cases hdrop : data = none ∨ user_data = none ∨
      ∃ f, user_data = some f ∧ f.signature ≠ F
  · refine ⟨[], fun tx w => ⟨w, ?_, by simp, rfl, rfl⟩⟩
    exact oscfilter.joint_handler_dropped tx F path types _ argc data user_data w hdrop
  · cases data with
    | none => exact absurd (Or.inl rfl) hdrop
    | some d =>
      cases user_data with
      | none => exact absurd (Or.inr (Or.inl rfl)) hdrop
      | some f =>
        have hsig : f.signature = F := by
          by_contra hne
          exact hdrop (Or.inr (Or.inr ⟨f, rfl, hne⟩))
        refine ⟨List.replicate (occurrences a0.s (window f.joints 0 f.num_joints.toNat))
          (forwarded f.addr path types a0 a1 a2 a3 a4), fun tx w => ?_⟩
        obtain ⟨w1, hrun, hsent, hdone, hout⟩ := oscfilter.joint_handler_full tx F path types
          a0 a1 a2 a3 a4 rest argc d f w hsig (hn f rfl)
        exact ⟨w1, hrun, hsent, hout, hdone⟩

/-- C8 witness: the table `["l_hand", "r_hand"]` and the message
`/joint ("l_hand", 3, 1.0, 2.0, 3.0)`. -/
theorem C8_send_result_ignored_witness :
    ∃ new : List lo_send_call, ∀ (tx : Transport) (w : World),
      ∃ w1 : World,
        oscfilter.joint_handler tx 7 (ascii "/joint") (ascii "sifff") args_l_hand 5
            (some 0) (some (ftr_of [l_hand, r_hand])) w = .ok (1, w1) ∧
        w1.sent = w.sent ++ new ∧ w1.stdout = w.stdout ∧ w1.done = w.done :=
  C8_send_result_ignored 7 (ascii "/joint") (ascii "sifff")
    ⟨l_hand, 0, 0⟩ ⟨[], 3, 0⟩ ⟨[], 0, 1065353216⟩ ⟨[], 0, 1073741824⟩ ⟨[], 0, 1077936128⟩ []
    5 (some 0) (some (ftr_of [l_hand, r_hand]))
    (fun f hf => by cases hf; decide)

end Gleam
